import Mathlib

/-!
Verification development for the TP-1005 RF analyzer driver.

This file gives a shallow embedding, in Lean 4, of the pure computational
content of the repository: the packet codec and parameter layout of
src/tpi_controller.py and src/tpi_controller2.py, and the sweep-controller
and measurement-pipeline functions of src/Analyzer_Granular.py.  Each
embedded definition is a direct translation of the corresponding Python
function; stateful serial reads are modelled by explicit byte streams
(lists of naturals standing for Python bytes objects, whose elements are
always in the range 0..255), Python exceptions by Except or explicit
outcome types, Python ints by Int or Nat, and Python floats by Rat
(exact arithmetic) extended, where the code can meet non-finite values,
with explicit NaN and infinity constructors.  Theorems about these
definitions settle the specification claims.
-/

set_option maxRecDepth 16000

namespace TP1005

/-- Python exception kinds raised by the embedded functions. -/
inductive PyErr where
  | valueError : PyErr
  | zeroDivisionError : PyErr
  | indexError : PyErr
  deriving DecidableEq, Repr

/-! ## calculate_num_points (src/Analyzer_Granular.py lines 9-18)

Python computes `num_points = (stop_khz - start_khz) / step_khz + 1` with
true (float) division and rejects a non-integral result with ValueError.
We model the division exactly over Rat; dividing by a zero step raises
ZeroDivisionError in Python, which we model explicitly.  The float
division is idealized as exact rational division (exact for all
realistic kHz magnitudes). -/

/-- Embedding of calculate_num_points: number of sweep points from
start, stop and step frequencies, requiring an integral count. -/
def calculate_num_points (start_khz stop_khz step_khz : ℤ) : Except PyErr ℤ :=
  if step_khz = 0 then .error .zeroDivisionError
  else
    let num_points : ℚ := ((stop_khz : ℚ) - (start_khz : ℚ)) / (step_khz : ℚ) + 1
    if num_points.den = 1 then .ok num_points.num else .error .valueError

/-! ## Packet codec (src/tpi_controller2.py lines 44-72)

A byte stream is a List of naturals; every element produced by the Python
bytes type is below 256.  The length field is assembled by Python as
`(header[2] << 8) | header[3]`; on bytes (below 256) this equals
`header[2] * 256 + header[3]`, which is how we write it. -/

namespace tpi_controller2

/-- Embedding of TPIController._build_packet: marker bytes, big-endian
16-bit body length, body, and the one-byte checksum. -/
def build_packet (body_bytes : List ℕ) : List ℕ :=
  let length := body_bytes.length
  let lenHi := (length >>> 8) % 256
  let lenLo := length % 256
  let chk := (0xFF - ((lenHi + lenLo + body_bytes.sum) % 256)) % 256
  [0xAA, 0x55, lenHi, lenLo] ++ body_bytes ++ [chk]

/-- Failure sites of TPIController._read_response, one per raise of
RuntimeError in the source. -/
inductive RespErr where
  | timeoutHeader : RespErr
  | invalidHeader : RespErr
  | timeoutBody : RespErr
  | timeoutChecksum : RespErr
  | checksumMismatch : RespErr
  deriving DecidableEq, Repr

/-- Embedding of TPIController._read_response: reads a four-byte header
from the stream, validates the marker, reads the body and the checksum
byte, and verifies the checksum. -/
def read_response (stream : List ℕ) : Except RespErr (List ℕ) :=
  match stream with
  | b0 :: b1 :: lh :: ll :: rest =>
    if b0 ≠ 0xAA ∨ b1 ≠ 0x55 then .error .invalidHeader
    else
      let length := lh * 256 + ll
      let body := rest.take length
      if body.length < length then .error .timeoutBody
      else
        match rest.drop length with
        | [] => .error .timeoutChecksum
        | c :: _ =>
          let chk := (0xFF - ((lh + ll + body.sum) % 256)) % 256
          if c ≠ chk then .error .checksumMismatch else .ok body
  | _ => .error .timeoutHeader

/-! ## Sweep parameters (src/tpi_controller2.py lines 96-131,
src/tpi_controller.py lines 151-187)

Python int.to_bytes(k, little) is modelled by explicit little-endian byte
lists; int.from_bytes(bs, little) by a fold.  Caller arguments are
modelled as naturals (the GUI scripts always pass nonnegative ints). -/

/-- Embedding of int.to_bytes(4, little): four little-endian bytes. -/
def to_bytes_4_le (n : ℕ) : List ℕ :=
  [n % 256, n / 256 % 256, n / 65536 % 256, n / 16777216 % 256]

/-- Embedding of int.to_bytes(2, little): two little-endian bytes. -/
def to_bytes_2_le (n : ℕ) : List ℕ :=
  [n % 256, n / 256 % 256]

/-- Embedding of int.from_bytes(bs, little). -/
def from_bytes_le (bs : List ℕ) : ℕ :=
  bs.foldr (fun b acc => b + 256 * acc) 0

/-- Arguments of set_analyzer_parameters_v2, one field per keyword
argument of the Python method. -/
structure AnalyzerParams where
  start_khz : ℕ
  stop_khz : ℕ
  step_khz : ℕ
  dwell_ms : ℕ
  num_points : ℕ
  auto_rf : Bool
  max_points_per_packet : ℕ
  averages_per_point : ℕ
  deriving DecidableEq, Repr

/-- Result structure of read_analyzer_parameters_v2; every field is parsed
from response bytes, so all are naturals. -/
@[ext] structure AnalyzerParamsRead where
  start_khz : ℕ
  stop_khz : ℕ
  step_khz : ℕ
  dwell_ms : ℕ
  num_points : ℕ
  auto_rf : ℕ
  max_points_per_packet : ℕ
  averages_per_point : ℕ
  deriving DecidableEq, Repr

/-- Embedding of TPIController.set_analyzer_parameters_v2
(src/tpi_controller2.py): validates dwell, clamps averaging to the range
1..10 and max points per packet to at most 50, and returns the command
body it would transmit. -/
def set_analyzer_parameters_v2 (p : AnalyzerParams) : Except PyErr (List ℕ) :=
  if p.dwell_ms < 2 ∨ p.dwell_ms > 500 then .error .valueError
  else
    let averages_per_point :=
      if p.averages_per_point < 1 then 1
      else if p.averages_per_point > 10 then 10
      else p.averages_per_point
    let max_points_per_packet :=
      if p.max_points_per_packet > 50 then 50 else p.max_points_per_packet
    .ok ([0x08, 0x3C] ++ to_bytes_4_le p.start_khz ++ to_bytes_4_le p.stop_khz
      ++ to_bytes_4_le p.step_khz ++ to_bytes_2_le p.dwell_ms
      ++ to_bytes_4_le p.num_points ++ [if p.auto_rf then 1 else 0]
      ++ [max_points_per_packet] ++ [averages_per_point])

/-- Embedding of the field extraction of read_analyzer_parameters_v2
(src/tpi_controller2.py lines 122-131), applied to a response body: the
mirrored fixed little-endian layout. -/
def parse_analyzer_parameters_v2 (resp : List ℕ) : AnalyzerParamsRead :=
  { start_khz := from_bytes_le ((resp.drop 2).take 4)
    stop_khz := from_bytes_le ((resp.drop 6).take 4)
    step_khz := from_bytes_le ((resp.drop 10).take 4)
    dwell_ms := from_bytes_le ((resp.drop 14).take 2)
    num_points := from_bytes_le ((resp.drop 16).take 4)
    auto_rf := resp.getD 20 0
    max_points_per_packet := resp.getD 21 0
    averages_per_point := resp.getD 22 0 }

end tpi_controller2

namespace tpi_controller

/-- Embedding of TPIController.set_analyzer_parameters_v2 of
src/tpi_controller.py (lines 151-187).  It differs from the
tpi_controller2 version in one place: the lower averaging guard tests
averages_per_point below 0, not below 1, so an averaging input of 0 is
encoded unchanged.  (On the natural-number caller inputs modelled here
the below-0 branch never fires; it is kept verbatim from the source.) -/
def set_analyzer_parameters_v2 (p : tpi_controller2.AnalyzerParams) : Except PyErr (List ℕ) :=
  if p.dwell_ms < 2 ∨ p.dwell_ms > 500 then .error .valueError
  else
    let averages_per_point :=
      if (p.averages_per_point : ℤ) < 0 then 1
      else if p.averages_per_point > 10 then 10
      else p.averages_per_point
    let max_points_per_packet :=
      if p.max_points_per_packet > 50 then 50 else p.max_points_per_packet
    .ok ([0x08, 0x3C] ++ tpi_controller2.to_bytes_4_le p.start_khz
      ++ tpi_controller2.to_bytes_4_le p.stop_khz
      ++ tpi_controller2.to_bytes_4_le p.step_khz
      ++ tpi_controller2.to_bytes_2_le p.dwell_ms
      ++ tpi_controller2.to_bytes_4_le p.num_points
      ++ [if p.auto_rf then 1 else 0]
      ++ [max_points_per_packet] ++ [averages_per_point])

/-! ### The v1 response reader (src/tpi_controller.py lines 31-46)

Unlike the tpi_controller2 reader, this one scans the stream for the
two marker bytes before parsing a frame. -/

/-- Outcomes of tpi_controller._read_response.  A read from an exhausted
stream returns no bytes; the marker scan then spins on empty reads
forever (modelled as blocked), and an empty read where the checksum
byte is indexed raises IndexError. -/
inductive ReadOutcome where
  | body (bs : List ℕ)
  | checksumError
  | indexError
  | blocked
  deriving DecidableEq, Repr

/-- The marker-scan loop of _read_response: read one byte; on 0xAA read
a second byte and stop if it is 0x55 (both bytes are consumed when the
second is not 0x55); on anything else continue scanning. -/
def scan_marker : List ℕ → Option (List ℕ)
  | [] => none
  | b1 :: rest =>
    if b1 = 0xAA then
      match rest with
      | [] => none
      | b2 :: rest2 => if b2 = 0x55 then some rest2 else scan_marker rest2
    else scan_marker rest

/-- Embedding of tpi_controller._read_response: scan for the marker,
then read the big-endian length, the body and the checksum byte, and
verify the checksum (ValueError on mismatch). -/
def read_response (stream : List ℕ) : ReadOutcome :=
  match scan_marker stream with
  | none => .blocked
  | some s =>
    match s with
    | lh :: ll :: rest =>
      let length := lh * 256 + ll
      let body := rest.take length
      match rest.drop length with
      | [] => .indexError
      | c :: _ =>
        let expected := (0xFF - ((lh + ll + body.sum) % 256)) % 256
        if c ≠ expected then .checksumError else .body body
    | _ => .indexError

end tpi_controller

/-! ## calculate_vswr (src/Analyzer_Granular.py lines 250-279)

The input is a Python value: a finite int or float (modelled exactly as a
rational), an IEEE special value, or a non-numeric object. -/

/-- A Python value as received by calculate_vswr. -/
inductive PyVal where
  | num (q : ℚ)
  | nan
  | inf
  | ninf
  | nonNumeric
  deriving DecidableEq, Repr

/-- The saturation and clamping tail of calculate_vswr (lines 268-279)
applied to an already-computed reflection coefficient: 5.0 at or above
total reflection, otherwise (1+r)/(1-r) clamped into [1.1, 5.0]. -/
noncomputable def vswr_of_reflection (reflection : ℝ) : ℝ :=
  if reflection ≥ 1 then 5.0
  else
    let vswr := (1 + reflection) / (1 - reflection)
    if vswr < 1.1 then 1.1
    else if vswr > 5.0 then 5.0
    else vswr

/-- Embedding of calculate_vswr.  The isinstance guard returns 5.0 on a
non-numeric value and np.isnan returns 5.0 on NaN; every other input
reaches the reflection computation 10 ** (-abs(x)/20).  Both infinities
pass the NaN check, and IEEE evaluation gives abs(±inf) = inf and
10 ** (-inf) = 0, so their reflection coefficient is exactly 0; a finite
x gives the real power. -/
noncomputable def calculate_vswr : PyVal → ℝ
  | .nonNumeric => 5.0
  | .nan => 5.0
  | .inf => vswr_of_reflection 0
  | .ninf => vswr_of_reflection 0
  | .num q => vswr_of_reflection ((10 : ℝ) ^ (-|(q : ℝ)| / 20))

/-! ## FrequencyScanner (src/Analyzer_Granular.py lines 323-442)

The scanner drives the serial controller, so its embedding makes the
externals explicit: the sequence of byte chunks returned by successive
capture_analyzer_raw calls is an input list (an exhausted list models
reads that return no bytes, which add nothing to the buffer and can
never match the seven-byte sentinel), and fault injection is an
environment telling, per primitive controller operation, whether that
operation raises.  Each embedded method returns the trace of operations
it attempted, so the teardown contract is a statement about traces. -/

/-- Primitive operations of setup, run and shutdown, one per controller
call (plus the pure calculate_num_points call, which can raise). -/
inductive Op where
  | openLink
  | enableUserControl
  | setRfPower
  | calcNumPoints
  | setAnalyzerParams
  | detectorOn
  | rfOn
  | startAnalyzer
  | capture
  | rfOff
  | detectorOff
  | closeLink
  deriving DecidableEq, Repr

/-- A fault environment: which primitive operations raise. -/
def Env : Type := Op → Bool

/-- Embedding of FrequencyScanner.shutdown (lines 432-442): with a live
controller, attempt RF output off then detector off inside a try whose
finally closes the link; a raise in either off-command skips the rest of
the try but not the close, and the exception escapes.  Returns the trace
of attempted operations and whether an exception escaped.  Without a
controller it does nothing. -/
def shutdown (env : Env) (hasTpi : Bool) : List Op × Bool :=
  if hasTpi then
    if env .rfOff then ([.rfOff, .closeLink], true)
    else if env .detectorOff then ([.rfOff, .detectorOff, .closeLink], true)
    else ([.rfOff, .detectorOff, .closeLink], false)
  else ([], false)

/-- The operations of the try block of FrequencyScanner.setup, in source
order (lines 349-375). -/
def setupSteps : List Op :=
  [.enableUserControl, .setRfPower, .calcNumPoints, .setAnalyzerParams, .detectorOn, .rfOn]

/-- Runs operations in order until one raises; returns the attempted
trace and whether a raise occurred. -/
def runSteps (env : Env) : List Op → List Op × Bool
  | [] => ([], false)
  | op :: rest =>
    if env op then ([op], true)
    else
      let tr := runSteps env rest
      (op :: tr.1, tr.2)

/-- Embedding of FrequencyScanner.setup (lines 341-379): constructs the
controller (outside the try block — a raise there escapes with nothing
to tear down), then runs the try-block operations; any raise inside the
try triggers shutdown before the exception escapes.  Returns the trace,
whether an exception escaped, and whether a controller is held
afterwards. -/
def setup (env : Env) : List Op × Bool × Bool :=
  if env .openLink then ([.openLink], true, false)
  else
    let tr := runSteps env setupSteps
    if tr.2 then
      (Op.openLink :: tr.1 ++ (shutdown env true).1, true, false)
    else
      (Op.openLink :: tr.1, false, true)

/-- The sweep-end sentinel byte sequence aa550002073fb7 (line 407). -/
def sentinel : List ℕ := [0xAA, 0x55, 0x00, 0x02, 0x07, 0x3F, 0xB7]

/-- Iteration ceiling NUM_CAPTURES of the capture loop (line 330). -/
def NUM_CAPTURES : ℕ := 60

/-- Embedding of the capture loop of run (lines 400-410): each chunk
longer than 12 bytes contributes its bytes 11..-2 to the accumulation
buffer; after a chunk whose trailing seven bytes equal the sentinel, the
last seven buffer bytes (if present) are dropped and the loop breaks.
Returns the final buffer and the number of iterations executed. -/
def capture_loop : List (List ℕ) → List ℕ → List ℕ × ℕ
  | [], buf => (buf, 0)
  | chunk :: rest, buf =>
    let buf1 := if chunk.length > 12 then buf ++ (chunk.drop 11).dropLast else buf
    if chunk.length ≥ 7 ∧ chunk.drop (chunk.length - 7) = sentinel then
      (if buf1.length ≥ 7 then buf1.take (buf1.length - 7) else buf1, 1)
    else
      let bn := capture_loop rest buf1
      (bn.1, bn.2 + 1)

/-- The 32-bit word held by four little-endian bytes. -/
def word32_of_le (b0 b1 b2 b3 : ℕ) : ℕ :=
  b0 + 256 * b1 + 65536 * b2 + 16777216 * b3

/-- Embedding of struct.unpack of one IEEE-754 binary32 word: sign bit,
eight exponent bits, 23 fraction bits; normals, subnormals, infinities
and NaN decoded per IEEE-754, with finite values exact rationals. -/
def decode_float32 (w : ℕ) : PyVal :=
  let sign : ℕ := w / 2 ^ 31 % 2
  let expo : ℕ := w / 2 ^ 23 % 256
  let frac : ℕ := w % 2 ^ 23
  if expo = 255 then
    if frac = 0 then (if sign = 1 then .ninf else .inf) else .nan
  else
    let mag : ℚ :=
      if expo = 0 then (frac : ℚ) * 2 ^ (-149 : ℤ)
      else ((2 ^ 23 + frac : ℕ) : ℚ) * 2 ^ ((expo : ℤ) - 150)
    .num (if sign = 1 then -mag else mag)

/-- The float conversion loop of run (lines 413-417): consecutive
four-byte groups decoded as little-endian float32 values; a trailing
group shorter than four bytes is discarded. -/
def decode_floats : List ℕ → List PyVal
  | b0 :: b1 :: b2 :: b3 :: rest =>
    decode_float32 (word32_of_le b0 b1 b2 b3) :: decode_floats rest
  | _ => []

/-- Embedding of FrequencyScanner.run (lines 381-430).  Without a
controller it raises RuntimeError before the try block, with no
teardown.  Otherwise it starts the analyzer and captures
NUM_CAPTURES chunks (the i-th read returns chunks[i]; missing entries
are empty reads); a raise in start or capture triggers shutdown before
the exception escapes.  On success the accumulated buffer is decoded as
consecutive little-endian float32 values and the i-th value is paired
with frequency start_khz + i * step_khz.  Returns the trace, the results
(none when an exception escaped), and whether a controller is held
afterwards. -/
def run (env : Env) (hasTpi : Bool) (chunks : List (List ℕ))
    (start_khz step_khz : ℤ) : List Op × Option (List (ℤ × PyVal)) × Bool :=
  if hasTpi = false then ([], none, false)
  else if env .startAnalyzer then
    (Op.startAnalyzer :: (shutdown env true).1, none, false)
  else if env .capture then
    (Op.startAnalyzer :: Op.capture :: (shutdown env true).1, none, false)
  else
    let reads := (chunks ++ List.replicate NUM_CAPTURES []).take NUM_CAPTURES
    let bufIters := capture_loop reads []
    let float_values := decode_floats bufIters.1
    let results := float_values.enum.map fun iv => (start_khz + (iv.1 : ℤ) * step_khz, iv.2)
    (Op.startAnalyzer :: List.replicate bufIters.2 Op.capture, some results, true)

/-! ## evaluate_vswr_range (src/Analyzer_Granular.py lines 544-612)

Measurement points are (frequency kHz, VSWR) pairs with integer
frequencies and exact rational values.  Python sorted(key = x[0]) is
modelled by insertion sort on the frequency; the model orders equal
frequencies arbitrarily where Python keeps input order, and the slope
division of the segment check is exact rational division where Python
would raise ZeroDivisionError on duplicate frequencies — the theorems
therefore assume pairwise distinct frequencies. -/

/-- Python sorted(vswr_data, key = x[0]): sort the points by frequency. -/
def sortByFreq (vswr_data : List (ℤ × ℚ)) : List (ℤ × ℚ) :=
  vswr_data.insertionSort fun a b => a.1 ≤ b.1

/-- The relevant-point collection loop of evaluate_vswr_range (lines
572-577): a point is kept when its frequency is at least freq_low or the
previous point (when one exists) is below freq_low, and the loop breaks
after the first point above freq_high. -/
def relevant_points (freq_low freq_high : ℤ) : Option ℤ → List (ℤ × ℚ) → List (ℤ × ℚ)
  | _, [] => []
  | prev, (freq, vswr) :: rest =>
    let keep : Bool := decide (freq_low ≤ freq) ||
      (match prev with
       | some pf => decide (pf < freq_low)
       | none => false)
    let tail :=
      if freq_high < freq then []
      else relevant_points freq_low freq_high (some freq) rest
    if keep then (freq, vswr) :: tail else tail

/-- The segment check loop of evaluate_vswr_range (lines 580-612): each
consecutive pair is skipped when entirely outside the query range;
otherwise, when either endpoint value exceeds the limit, the segment is
linearly interpolated at the range-clipped boundaries and fails if the
larger clipped boundary value exceeds the limit. -/
def segments_ok (freq_low freq_high : ℤ) (vswr_limit : ℚ) : List (ℤ × ℚ) → Bool
  | (freq1, vswr1) :: (freq2, vswr2) :: rest =>
    let ok : Bool :=
      if freq1 > freq_high ∨ freq2 < freq_low then true
      else if vswr1 > vswr_limit ∨ vswr2 > vswr_limit then
        let slope := (vswr2 - vswr1) / ((freq2 : ℚ) - (freq1 : ℚ))
        let check_start := max freq1 freq_low
        let check_end := min freq2 freq_high
        let vswr_start := vswr1 + slope * ((check_start : ℚ) - (freq1 : ℚ))
        let vswr_end := vswr1 + slope * ((check_end : ℚ) - (freq1 : ℚ))
        if max vswr_start vswr_end > vswr_limit then false else true
      else true
    ok && segments_ok freq_low freq_high vswr_limit ((freq2, vswr2) :: rest)
  | _ => true

/-- Embedding of evaluate_vswr_range: sort by frequency, validate the
query range against the measured span (ValueError when it extends
beyond; an empty input raises IndexError at the span lookup), collect
the relevant points and check every consecutive segment. -/
def evaluate_vswr_range (vswr_data : List (ℤ × ℚ)) (freq_low freq_high : ℤ)
    (vswr_limit : ℚ) : Except PyErr Bool :=
  let sorted_data := sortByFreq vswr_data
  match sorted_data with
  | [] => .error .indexError
  | first :: _ =>
    let min_freq := first.1
    let max_freq := (sorted_data.getLastD (0, 0)).1
    if freq_low < min_freq ∨ max_freq < freq_high then .error .valueError
    else
      .ok (segments_ok freq_low freq_high vswr_limit
        (relevant_points freq_low freq_high none sorted_data))

/-- The claim's description of evaluate_range, written from the claim
text for comparison with the source embedding: every consecutive pair of
the frequency-sorted points is considered, a pair entirely outside the
query range is skipped, and when either endpoint value exceeds the limit
the pair's values are linearly interpolated at the range-clipped segment
boundaries, failing if either clipped boundary value exceeds the limit;
true is returned only if no overlapping segment fails. -/
def evaluate_range_claim (vswr_data : List (ℤ × ℚ)) (freq_low freq_high : ℤ)
    (vswr_limit : ℚ) : Bool :=
  segments_ok freq_low freq_high vswr_limit (sortByFreq vswr_data)

/-- Proof helper for the segment analysis: the prefix of a point list
through its first point above freq_high.  The relevant-point loop of the
source produces exactly this window of the (possibly trimmed) sorted
list. -/
def cutAfterHigh (freq_high : ℤ) : List (ℤ × ℚ) → List (ℤ × ℚ)
  | [] => []
  | x :: rest => x :: (if freq_high < x.1 then [] else cutAfterHigh freq_high rest)

/-- Totality of the frequency comparison used by sortByFreq. -/
instance : IsTotal (ℤ × ℚ) (fun a b => a.1 ≤ b.1) :=
  ⟨fun a b => le_total a.1 b.1⟩

/-- Transitivity of the frequency comparison used by sortByFreq. -/
instance : IsTrans (ℤ × ℚ) (fun a b => a.1 ≤ b.1) :=
  ⟨fun _ _ _ h1 h2 => le_trans h1 h2⟩

/-! ## interpolated (src/Analyzer_Granular.py lines 56-123)

The scipy CubicSpline fitted from the sorted points is modelled as an
input function from frequency to value: the invariants proved about the
output concern only the frequency structure and hold for every spline
function.  scipy rejects x values that are not strictly increasing, so
the embedding raises ValueError (the source wraps construction errors in
ValueError) when the sorted frequencies are not strictly increasing. -/

/-- Python round(v, 3), idealized as exact half-up rounding to three
decimals (Python rounds half to even; no claim here depends on the
tie-breaking rule). -/
def round3 (v : ℚ) : ℚ := ((round (v * 1000) : ℤ) : ℚ) / 1000

/-- The method argument of interpolated.  The source lower-cases the
string and compares it with the word none, so the argument carries
exactly two semantic cases: the none case (any capitalization of that
word) and everything else, which selects cubic interpolation. -/
inductive Method where
  | cubic
  | none
  deriving DecidableEq, Repr

/-- Python sorted over (int(f), float(v)) tuples: lexicographic pair
order, modelled by insertion sort. -/
def sortPairs (vswr_data : List (ℤ × ℚ)) : List (ℤ × ℚ) :=
  vswr_data.insertionSort fun a b => a.1 < b.1 ∨ (a.1 = b.1 ∧ a.2 ≤ b.2)

/-- Totality of the pair comparison used by sortPairs. -/
instance : IsTotal (ℤ × ℚ) (fun a b => a.1 < b.1 ∨ (a.1 = b.1 ∧ a.2 ≤ b.2)) := by
  constructor
  intro a b
  rcases lt_trichotomy a.1 b.1 with h | h | h
  · exact Or.inl (Or.inl h)
  · rcases le_total a.2 b.2 with h2 | h2
    · exact Or.inl (Or.inr ⟨h, h2⟩)
    · exact Or.inr (Or.inr ⟨h.symm, h2⟩)
  · exact Or.inr (Or.inl h)

/-- Transitivity of the pair comparison used by sortPairs. -/
instance : IsTrans (ℤ × ℚ) (fun a b => a.1 < b.1 ∨ (a.1 = b.1 ∧ a.2 ≤ b.2)) := by
  constructor
  rintro a b c (h1 | ⟨h1, h1q⟩) (h2 | ⟨h2, h2q⟩)
  · exact Or.inl (lt_trans h1 h2)
  · exact Or.inl (h2 ▸ h1)
  · exact Or.inl (h1 ▸ h2)
  · exact Or.inr ⟨h1.trans h2, le_trans h1q h2q⟩

/-- The inner insertion loop of interpolated (lines 114-120): starting
at j, up to k further points at new_freq = freq1 + j * step, breaking at
the first that reaches freq2, each evaluated from the spline and rounded
to three decimals. -/
def insert_points (spline : ℤ → ℚ) (freq1 freq2 step : ℤ) : ℕ → ℤ → List (ℤ × ℚ)
  | 0, _ => []
  | k + 1, j =>
    let new_freq := freq1 + j * step
    if freq2 ≤ new_freq then []
    else (new_freq, round3 (spline new_freq)) ::
      insert_points spline freq1 freq2 step k (j + 1)

/-- Embedding of interpolated: with method none or factor below 1 the
input is returned with frequencies as integers and values rounded;
otherwise the points are sorted, fewer than four points raise
ValueError (as does a non-strictly-increasing frequency sequence, via
the spline constructor), every original point is kept rounded, and for
each adjacent pair up to interpolation_factor new points are inserted
at floor((freq2 - freq1) / (factor + 1)) spacing (skipped when that
step is below 1), the whole result finally sorted by frequency. -/
def interpolated (spline : ℤ → ℚ) (vswr_data : List (ℤ × ℚ))
    (interpolation_factor : ℤ) (method : Method) : Except PyErr (List (ℤ × ℚ)) :=
  if method = Method.none ∨ interpolation_factor < 1 then
    .ok (vswr_data.map fun p => (p.1, round3 p.2))
  else
    let sorted_data := sortPairs vswr_data
    if sorted_data.length < 4 then .error .valueError
    else if ¬ List.Chain' (fun a b : ℤ × ℚ => a.1 < b.1) sorted_data then
      .error .valueError
    else
      let result := sorted_data.map fun p => (p.1, round3 p.2)
      let inserted := (List.range (sorted_data.length - 1)).flatMap fun i =>
        let freq1 := (sorted_data.getD i (0, 0)).1
        let freq2 := (sorted_data.getD (i + 1) (0, 0)).1
        let step := Int.fdiv (freq2 - freq1) (interpolation_factor + 1)
        if step < 1 then []
        else insert_points spline freq1 freq2 step interpolation_factor.toNat 1
      .ok ((result ++ inserted).insertionSort fun a b => a.1 ≤ b.1)

/-- Decidable equality of Except values, used to evaluate embedded
functions on concrete inputs. -/
instance {ε α : Type} [DecidableEq ε] [DecidableEq α] : DecidableEq (Except ε α) := fun x y =>
  match x, y with
  | .ok a, .ok b =>
    if h : a = b then .isTrue (by rw [h]) else .isFalse (by simp [h])
  | .error e, .error f =>
    if h : e = f then .isTrue (by rw [h]) else .isFalse (by simp [h])
  | .ok _, .error _ => .isFalse (by simp)
  | .error _, .ok _ => .isFalse (by simp)

/-! ### Theorems for calculate_num_points (claim C9) -/

/-- Helper for C9: characterization of the ok results of
calculate_num_points for a nonzero step. -/
theorem calculate_num_points_ok_iff (start stop step : ℤ) (h : step ≠ 0) (n : ℤ) :
    calculate_num_points start stop step = .ok n ↔
      ((stop : ℚ) - (start : ℚ)) / (step : ℚ) + 1 = (n : ℚ) := by
  unfold calculate_num_points
  rw [if_neg h]
  set q : ℚ := ((stop : ℚ) - (start : ℚ)) / (step : ℚ) + 1 with hq
  by_cases hd : q.den = 1
  · rw [if_pos hd]
    have hnum : (q.num : ℚ) = q := (Rat.den_eq_one_iff q).mp hd
    constructor
    · intro hok
      obtain rfl : q.num = n := Except.ok.inj hok
      exact hnum.symm
    · intro hqe
      have hn : q.num = n := by exact_mod_cast hnum.trans hqe
      rw [hn]
  · rw [if_neg hd]
    constructor
    · intro hok
      exact absurd hok (by simp)
    · intro hqe
      have : q.den = 1 := by rw [hqe]; exact Rat.den_intCast n
      exact absurd this hd

/-- Helper for C9: characterization of the ValueError outcome of
calculate_num_points for a nonzero step. -/
theorem calculate_num_points_valueError_iff (start stop step : ℤ) (h : step ≠ 0) :
    calculate_num_points start stop step = .error .valueError ↔
      ¬ ∃ n : ℤ, ((stop : ℚ) - (start : ℚ)) / (step : ℚ) + 1 = (n : ℚ) := by
  unfold calculate_num_points
  rw [if_neg h]
  set q : ℚ := ((stop : ℚ) - (start : ℚ)) / (step : ℚ) + 1 with hq
  by_cases hd : q.den = 1
  · rw [if_pos hd]
    have hnum : (q.num : ℚ) = q := (Rat.den_eq_one_iff q).mp hd
    constructor
    · intro hok
      exact absurd hok (by simp)
    · intro hne
      exact absurd ⟨q.num, hnum.symm⟩ hne
  · rw [if_neg hd]
    constructor
    · rintro - ⟨n, hn⟩
      have : q.den = 1 := by rw [hn]; exact Rat.den_intCast n
      exact absurd this hd
    · intro _
      rfl

/-- C9 counterexample: at start 0, stop 1, step 0 the quantity
(stop - start)/step + 1 is undefined, hence not an exact integer, so the
claim prescribes ValueError; the code instead raises ZeroDivisionError at
the division. -/
theorem calculate_num_points_step_zero :
    calculate_num_points 0 1 0 = Except.error PyErr.zeroDivisionError ∧
    calculate_num_points 0 1 0 ≠ Except.error PyErr.valueError := by
  have h : calculate_num_points 0 1 0 = Except.error PyErr.zeroDivisionError := by
    unfold calculate_num_points
    rw [if_pos rfl]
  exact ⟨h, by rw [h]; simp⟩

/-- Helper for C9: the concrete pass and fail examples named by the claim. -/
theorem calculate_num_points_examples :
    calculate_num_points 100000 200000 1000 = .ok 101 ∧
    calculate_num_points 100000 200001 1000 = .error .valueError := by
  constructor
  · exact (calculate_num_points_ok_iff 100000 200000 1000 (by decide) 101).mpr (by norm_num)
  · refine (calculate_num_points_valueError_iff 100000 200001 1000 (by decide)).mpr ?_
    rintro ⟨n, hn⟩
    push_cast at hn
    have h2 : (101001 : ℚ) = 1000 * (n : ℚ) := by
      field_simp at hn
      linarith
    have h3 : (101001 : ℤ) = 1000 * n := by exact_mod_cast h2
    omega

/-- C9 (amended): for every nonzero step, calculate_num_points returns
(stop - start)/step + 1 precisely when that rational is an exact integer
and raises ValueError otherwise; in particular it returns 101 on
(100000, 200000, 1000) and ValueError on (100000, 200001, 1000).  A zero
step raises ZeroDivisionError instead. -/
theorem calculate_num_points_correct (start stop step : ℤ) (h : step ≠ 0) :
    (∀ n : ℤ, calculate_num_points start stop step = .ok n ↔
        ((stop : ℚ) - (start : ℚ)) / (step : ℚ) + 1 = (n : ℚ)) ∧
    (calculate_num_points start stop step = .error .valueError ↔
        ¬ ∃ n : ℤ, ((stop : ℚ) - (start : ℚ)) / (step : ℚ) + 1 = (n : ℚ)) ∧
    calculate_num_points 100000 200000 1000 = .ok 101 ∧
    calculate_num_points 100000 200001 1000 = .error .valueError :=
  ⟨fun n => calculate_num_points_ok_iff start stop step h n,
   calculate_num_points_valueError_iff start stop step h,
   calculate_num_points_examples.1, calculate_num_points_examples.2⟩

/-! ### Theorems for the packet codec (claim C3) -/

namespace tpi_controller2

/-- Helper for C3: reading a frame whose length field agrees with the body
length reduces to the checksum comparison. -/
theorem read_response_frame (lh ll c : ℕ) (body : List ℕ)
    (hL : lh * 256 + ll = body.length) :
    read_response (0xAA :: 0x55 :: lh :: ll :: (body ++ [c])) =
      if c ≠ (0xFF - ((lh + ll + body.sum) % 256)) % 256 then .error .checksumMismatch
      else .ok body := by
  unfold read_response
  simp only [hL, List.take_left, List.drop_left, lt_irrefl, if_false]
  norm_num

/-- Helper for C3: replacing the entry at index i changes a list's sum by
the difference between the new and the old entry. -/
theorem sum_set_add : ∀ (l : List ℕ) (i : ℕ) (hi : i < l.length) (b : ℕ),
    (l.set i b).sum + l.get ⟨i, hi⟩ = l.sum + b
  | x :: xs, 0, _, b => by
    simp only [List.set, List.sum_cons, List.get]
    omega
  | x :: xs, i + 1, hi, b => by
    simp only [List.set, List.sum_cons, List.get]
    have := sum_set_add xs i (by simpa using hi) b
    omega

/-- C3: for every body (opcode bytes followed by payload) that fits the
16-bit length field, the frame built by build_packet carries a final
checksum byte satisfying chk + (len_hi + len_lo + sum body) = 0xFF
modulo 256, read_response applied to exactly that frame returns the body,
and read_response applied to the frame with the single body byte at
index i replaced by a different byte value fails with the checksum
mismatch error. -/
theorem packet_codec_roundtrip (body : List ℕ) (i b : ℕ)
    (hlen : body.length < 65536)
    (hbytes : ∀ x ∈ body, x < 256)
    (hi : i < body.length) (hb : b < 256)
    (hne : b ≠ body.get ⟨i, hi⟩) :
    ((build_packet body).getLastD 0 +
        ((body.length >>> 8) % 256 + body.length % 256 + body.sum)) % 256 = 0xFF ∧
    read_response (build_packet body) = .ok body ∧
    read_response ((build_packet body).set (4 + i) b) = .error .checksumMismatch := by
  have hsh : body.length >>> 8 = body.length / 256 := by
    rw [Nat.shiftRight_eq_div_pow]
  have hL : (body.length >>> 8) % 256 * 256 + body.length % 256 = body.length := by
    rw [hsh]
    omega
  refine ⟨?_, ?_, ?_⟩
  · simp only [build_packet]
    rw [List.getLastD_concat]
    omega
  · have h2 := read_response_frame ((body.length >>> 8) % 256) (body.length % 256)
      ((0xFF - (((body.length >>> 8) % 256 + body.length % 256 + body.sum) % 256)) % 256)
      body hL
    rw [if_neg (by simp)] at h2
    exact h2
  · have hset : (build_packet body).set (4 + i) b =
        0xAA :: 0x55 :: (body.length >>> 8) % 256 :: body.length % 256 ::
          (body.set i b ++
            [(0xFF - (((body.length >>> 8) % 256 + body.length % 256 + body.sum) % 256)) % 256]) := by
      simp only [build_packet, List.cons_append, List.nil_append]
      have h4 : 4 + i = i + 1 + 1 + 1 + 1 := by omega
      rw [h4]
      simp only [List.set_cons_succ]
      rw [List.set_append, if_pos hi]
    rw [hset]
    have hL2 : (body.length >>> 8) % 256 * 256 + body.length % 256 = (body.set i b).length := by
      rw [List.length_set]
      exact hL
    rw [read_response_frame _ _ _ _ hL2]
    rw [if_pos]
    have hsum := sum_set_add body i hi b
    have hgb : body.get ⟨i, hi⟩ < 256 := hbytes _ (List.get_mem body i hi)
    omega

/-- C3 witness: the codec theorem applied to the read-model command body
with its payload byte corrupted. -/
theorem packet_codec_roundtrip_witness :
    read_response (build_packet [7, 2]) = .ok [7, 2] ∧
    read_response ((build_packet [7, 2]).set (4 + 1) 3) = .error .checksumMismatch :=
  ⟨(packet_codec_roundtrip [7, 2] 1 3 (by decide) (by decide) (by decide) (by decide)
      (by decide)).2.1,
   (packet_codec_roundtrip [7, 2] 1 3 (by decide) (by decide) (by decide) (by decide)
      (by decide)).2.2⟩

/-! ### Theorems for the sweep-parameter layout (claims C7, C8) -/

/-- C7: for every accepted parameter set whose numeric fields fit their
encoded widths, parsing the payload built by set_analyzer_parameters_v2
with the mirrored layout of read_analyzer_parameters_v2 recovers the
frequency fields, dwell and point count exactly, the auto_rf flag as 1
or 0, and the clamped averaging and max-points-per-packet bytes. -/
theorem set_read_parameters_roundtrip (p : AnalyzerParams)
    (hd2 : 2 ≤ p.dwell_ms) (hd5 : p.dwell_ms ≤ 500)
    (hs : p.start_khz < 4294967296) (ht : p.stop_khz < 4294967296)
    (hp : p.step_khz < 4294967296) (hn : p.num_points < 4294967296) :
    ∃ body, set_analyzer_parameters_v2 p = .ok body ∧
      parse_analyzer_parameters_v2 body =
        { start_khz := p.start_khz
          stop_khz := p.stop_khz
          step_khz := p.step_khz
          dwell_ms := p.dwell_ms
          num_points := p.num_points
          auto_rf := if p.auto_rf then 1 else 0
          max_points_per_packet :=
            if p.max_points_per_packet > 50 then 50 else p.max_points_per_packet
          averages_per_point :=
            if p.averages_per_point < 1 then 1
            else if p.averages_per_point > 10 then 10
            else p.averages_per_point } := by
  have hcond : ¬ (p.dwell_ms < 2 ∨ p.dwell_ms > 500) := by omega
  simp only [set_analyzer_parameters_v2, hcond, if_false]
  refine ⟨_, rfl, ?_⟩
  refine AnalyzerParamsRead.ext ?_ ?_ ?_ ?_ ?_ ?_ ?_ ?_
  · show p.start_khz % 256 + 256 * (p.start_khz / 256 % 256 + 256 *
      (p.start_khz / 65536 % 256 + 256 * (p.start_khz / 16777216 % 256 + 256 * 0))) =
        p.start_khz
    omega
  · show p.stop_khz % 256 + 256 * (p.stop_khz / 256 % 256 + 256 *
      (p.stop_khz / 65536 % 256 + 256 * (p.stop_khz / 16777216 % 256 + 256 * 0))) =
        p.stop_khz
    omega
  · show p.step_khz % 256 + 256 * (p.step_khz / 256 % 256 + 256 *
      (p.step_khz / 65536 % 256 + 256 * (p.step_khz / 16777216 % 256 + 256 * 0))) =
        p.step_khz
    omega
  · show p.dwell_ms % 256 + 256 * (p.dwell_ms / 256 % 256 + 256 * 0) = p.dwell_ms
    omega
  · show p.num_points % 256 + 256 * (p.num_points / 256 % 256 + 256 *
      (p.num_points / 65536 % 256 + 256 * (p.num_points / 16777216 % 256 + 256 * 0))) =
        p.num_points
    omega
  · rfl
  · rfl
  · rfl

/-- C8 counterexample: the tpi_controller.py variant of
set_analyzer_parameters_v2 guards the averaging lower bound against 0
instead of 1, so the accepted call with averages_per_point 0 places the
byte 0 — outside the range 1..10 the claim asserts — at the averaging
position (index 22) of the encoded payload. -/
theorem set_parameters_v1_averaging_zero :
    Except.map (fun body => body.getD 22 0)
        (tpi_controller.set_analyzer_parameters_v2
          ⟨1606250, 1636250, 600, 20, 51, true, 40, 0⟩) = .ok 0 ∧
    ¬ (1 ≤ (0 : ℕ) ∧ (0 : ℕ) ≤ 10) := by
  constructor
  · decide
  · decide

/-- C8 (amended): dwell outside [2, 500] raises ValueError in both
controller files (dwell 1 and 501 in particular raise; dwell 2 and 500
are accepted); for every accepted call, the tpi_controller2 payload
carries an averaging byte in [1, 10] and a max-points byte at most 50,
while the tpi_controller payload carries an averaging byte equal to
min(input, 10) — its lower clamp tests below 0, so input 0 is encoded
as byte 0 — and a max-points byte at most 50. -/
theorem set_parameters_validation_clamping (p : AnalyzerParams)
    (hd2 : 2 ≤ p.dwell_ms) (hd5 : p.dwell_ms ≤ 500) :
    (∀ q : AnalyzerParams, q.dwell_ms < 2 ∨ q.dwell_ms > 500 →
        set_analyzer_parameters_v2 q = .error .valueError ∧
        tpi_controller.set_analyzer_parameters_v2 q = .error .valueError) ∧
    set_analyzer_parameters_v2 ⟨1606250, 1636250, 600, 1, 51, true, 40, 8⟩ =
      .error .valueError ∧
    set_analyzer_parameters_v2 ⟨1606250, 1636250, 600, 501, 51, true, 40, 8⟩ =
      .error .valueError ∧
    (∃ body, set_analyzer_parameters_v2 ⟨1606250, 1636250, 600, 2, 51, true, 40, 8⟩ =
      .ok body) ∧
    (∃ body, set_analyzer_parameters_v2 ⟨1606250, 1636250, 600, 500, 51, true, 40, 8⟩ =
      .ok body) ∧
    (∃ body, set_analyzer_parameters_v2 p = .ok body ∧
        1 ≤ body.getD 22 0 ∧ body.getD 22 0 ≤ 10 ∧ body.getD 21 0 ≤ 50) ∧
    (∃ body, tpi_controller.set_analyzer_parameters_v2 p = .ok body ∧
        body.getD 22 0 = min p.averages_per_point 10 ∧ body.getD 21 0 ≤ 50) := by
  have hcond : ¬ (p.dwell_ms < 2 ∨ p.dwell_ms > 500) := by omega
  refine ⟨?_, by decide, by decide, ⟨_, rfl⟩, ⟨_, rfl⟩, ?_, ?_⟩
  · intro q hq
    constructor
    · unfold set_analyzer_parameters_v2
      rw [if_pos hq]
    · unfold tpi_controller.set_analyzer_parameters_v2
      rw [if_pos hq]
  · simp only [set_analyzer_parameters_v2, hcond, if_false]
    refine ⟨_, rfl, ?_, ?_, ?_⟩
    · show 1 ≤ (if p.averages_per_point < 1 then 1
        else if p.averages_per_point > 10 then 10 else p.averages_per_point)
      split_ifs <;> omega
    · show (if p.averages_per_point < 1 then 1
        else if p.averages_per_point > 10 then 10 else p.averages_per_point) ≤ 10
      split_ifs <;> omega
    · show (if p.max_points_per_packet > 50 then 50 else p.max_points_per_packet) ≤ 50
      split_ifs <;> omega
  · simp only [tpi_controller.set_analyzer_parameters_v2, hcond, if_false]
    refine ⟨_, rfl, ?_, ?_⟩
    · show (if ((p.averages_per_point : ℤ) < 0) then 1
        else if p.averages_per_point > 10 then 10 else p.averages_per_point) =
          min p.averages_per_point 10
      rw [if_neg (by omega)]
      split_ifs <;> omega
    · show (if p.max_points_per_packet > 50 then 50 else p.max_points_per_packet) ≤ 50
      split_ifs <;> omega

/-- C8 witness: the amended validation and clamping theorem applied at
the concrete parameter set used by the Analyzer_Granular main routine. -/
theorem set_parameters_validation_clamping_witness :
    (∀ q : AnalyzerParams, q.dwell_ms < 2 ∨ q.dwell_ms > 500 →
        set_analyzer_parameters_v2 q = .error .valueError ∧
        tpi_controller.set_analyzer_parameters_v2 q = .error .valueError) ∧
    set_analyzer_parameters_v2 ⟨1606250, 1636250, 600, 1, 51, true, 40, 8⟩ =
      .error .valueError ∧
    set_analyzer_parameters_v2 ⟨1606250, 1636250, 600, 501, 51, true, 40, 8⟩ =
      .error .valueError ∧
    (∃ body, set_analyzer_parameters_v2 ⟨1606250, 1636250, 600, 2, 51, true, 40, 8⟩ =
      .ok body) ∧
    (∃ body, set_analyzer_parameters_v2 ⟨1606250, 1636250, 600, 500, 51, true, 40, 8⟩ =
      .ok body) ∧
    (∃ body, set_analyzer_parameters_v2 ⟨1606250, 1636250, 600, 20, 51, true, 40, 8⟩ =
      .ok body ∧ 1 ≤ body.getD 22 0 ∧ body.getD 22 0 ≤ 10 ∧ body.getD 21 0 ≤ 50) ∧
    (∃ body, tpi_controller.set_analyzer_parameters_v2
        ⟨1606250, 1636250, 600, 20, 51, true, 40, 8⟩ = .ok body ∧
        body.getD 22 0 = min 8 10 ∧ body.getD 21 0 ≤ 50) :=
  set_parameters_validation_clamping ⟨1606250, 1636250, 600, 20, 51, true, 40, 8⟩
    (by decide) (by decide)

/-- C7 witness: the round trip applied to the concrete sweep used by the
Analyzer_Granular main routine. -/
theorem set_read_parameters_roundtrip_witness :
    ∃ body,
      set_analyzer_parameters_v2 ⟨1606250, 1636250, 600, 20, 51, true, 40, 8⟩ = .ok body ∧
      parse_analyzer_parameters_v2 body =
        { start_khz := 1606250
          stop_khz := 1636250
          step_khz := 600
          dwell_ms := 20
          num_points := 51
          auto_rf := if true then 1 else 0
          max_points_per_packet := if 40 > 50 then 50 else 40
          averages_per_point := if 8 < 1 then 1 else if 8 > 10 then 10 else 8 } :=
  set_read_parameters_roundtrip ⟨1606250, 1636250, 600, 20, 51, true, 40, 8⟩
    (by decide) (by decide) (by decide) (by decide) (by decide) (by decide)

end tpi_controller2

/-- C9 witness: the amended theorem applied at a concrete nonzero step. -/
theorem calculate_num_points_correct_witness :
    (∀ n : ℤ, calculate_num_points 100000 200000 1000 = .ok n ↔
        ((200000 : ℚ) - (100000 : ℚ)) / (1000 : ℚ) + 1 = (n : ℚ)) ∧
    (calculate_num_points 100000 200000 1000 = .error .valueError ↔
        ¬ ∃ n : ℤ, ((200000 : ℚ) - (100000 : ℚ)) / (1000 : ℚ) + 1 = (n : ℚ)) ∧
    calculate_num_points 100000 200000 1000 = .ok 101 ∧
    calculate_num_points 100000 200001 1000 = .error .valueError :=
  calculate_num_points_correct 100000 200000 1000 (by decide)


/-! ### Theorems for calculate_vswr (claim C2) -/

/-- Helper for C2: a reflection coefficient of exactly 0 yields a raw
VSWR of 1, which the floor clamp raises to 1.1. -/
theorem vswr_of_reflection_zero : vswr_of_reflection 0 = 1.1 := by
  unfold vswr_of_reflection
  rw [if_neg (by norm_num)]
  norm_num

/-- C2 counterexample: positive infinity is a non-finite input, yet
calculate_vswr returns the clamp floor 1.1 on it, not the 5.0 the claim
asserts for every non-finite or non-numeric input. -/
theorem calculate_vswr_inf_ne_five :
    calculate_vswr PyVal.inf = 1.1 ∧ calculate_vswr PyVal.inf ≠ 5.0 := by
  have h : calculate_vswr PyVal.inf = 1.1 := by
    show vswr_of_reflection 0 = 1.1
    exact vswr_of_reflection_zero
  exact ⟨h, by rw [h]; norm_num⟩

/-- C2 (amended): NaN and non-numeric inputs return 5.0 — the
isinstance/isnan guard covers exactly those — while positive and negative
infinity pass the NaN check, produce reflection coefficient 0, and return
the clamp floor 1.1 rather than 5.0. -/
theorem calculate_vswr_invalid_inputs :
    calculate_vswr PyVal.nan = 5.0 ∧
    calculate_vswr PyVal.nonNumeric = 5.0 ∧
    calculate_vswr PyVal.inf = 1.1 ∧
    calculate_vswr PyVal.ninf = 1.1 := by
  refine ⟨rfl, rfl, ?_, ?_⟩
  · show vswr_of_reflection 0 = 1.1
    exact vswr_of_reflection_zero
  · show vswr_of_reflection 0 = 1.1
    exact vswr_of_reflection_zero



/-! ### Theorems for run decoding (claim C4) -/

/-- Helper for C4: decode_floats produces one value per full four-byte
group, discarding a shorter trailing group. -/
theorem decode_floats_length : ∀ l : List ℕ, (decode_floats l).length = l.length / 4
  | [] => by simp [decode_floats]
  | [b0] => by simp [decode_floats]
  | [b0, b1] => by simp [decode_floats]
  | [b0, b1, b2] => by simp [decode_floats]
  | b0 :: b1 :: b2 :: b3 :: rest => by
    simp only [decode_floats, List.length_cons]
    rw [decode_floats_length rest]
    omega

/-- Helper for C4: the i-th decoded value comes from bytes 4i..4i+3 of
the buffer. -/
theorem decode_floats_getElem : ∀ (l : List ℕ) (i : ℕ) (h : i < (decode_floats l).length),
    (decode_floats l)[i] =
      decode_float32 (word32_of_le (l.getD (4 * i) 0) (l.getD (4 * i + 1) 0)
        (l.getD (4 * i + 2) 0) (l.getD (4 * i + 3) 0))
  | b0 :: b1 :: b2 :: b3 :: rest, 0, h => rfl
  | b0 :: b1 :: b2 :: b3 :: rest, i + 1, h => by
    have hr : i < (decode_floats rest).length := by
      simpa [decode_floats] using h
    have ih := decode_floats_getElem rest i hr
    have e0 : (b0 :: b1 :: b2 :: b3 :: rest).getD (4 * (i + 1)) 0 = rest.getD (4 * i) 0 := by
      have h4 : 4 * (i + 1) = 4 * i + 1 + 1 + 1 + 1 := by ring
      rw [h4]
      simp [List.getD_cons_succ]
    have e1 : (b0 :: b1 :: b2 :: b3 :: rest).getD (4 * (i + 1) + 1) 0 =
        rest.getD (4 * i + 1) 0 := by
      have h4 : 4 * (i + 1) + 1 = 4 * i + 1 + 1 + 1 + 1 + 1 := by ring
      rw [h4]
      simp [List.getD_cons_succ]
    have e2 : (b0 :: b1 :: b2 :: b3 :: rest).getD (4 * (i + 1) + 2) 0 =
        rest.getD (4 * i + 2) 0 := by
      have h4 : 4 * (i + 1) + 2 = 4 * i + 2 + 1 + 1 + 1 + 1 := by ring
      rw [h4]
      simp [List.getD_cons_succ]
    have e3 : (b0 :: b1 :: b2 :: b3 :: rest).getD (4 * (i + 1) + 3) 0 =
        rest.getD (4 * i + 3) 0 := by
      have h4 : 4 * (i + 1) + 3 = 4 * i + 3 + 1 + 1 + 1 + 1 := by ring
      rw [h4]
      simp [List.getD_cons_succ]
    rw [e0, e1, e2, e3]
    simpa [decode_floats] using ih

/-- Helper for C4: reads that return no bytes leave the buffer unchanged
and never match the sentinel, so a run of empty reads only counts
iterations. -/
theorem capture_loop_empty_reads (n : ℕ) (buf : List ℕ) :
    capture_loop (List.replicate n []) buf = (buf, n) := by
  induction n with
  | zero => simp [capture_loop]
  | succ k ih => simp [List.replicate_succ, capture_loop, sentinel, ih]

/-- C4: with a live controller and no injected faults, run returns
results that decode the accumulation buffer left by the capture loop
(whether it stopped on the sentinel or at the iteration ceiling) as
consecutive little-endian float32 values: one result per full four-byte
group (a shorter trailing group is discarded), the i-th result pairing
the i-th decoded value with frequency start_khz + i * step_khz.  On the
concrete capture whose stripped payload holds the two little-endian
float32 values 0.0 and -1.5, at start 1000 kHz and step 10 kHz, it
returns [(1000, 0.0), (1010, -1.5)]. -/
theorem run_decodes_capture_buffer (chunks : List (List ℕ)) (start_khz step_khz : ℤ) :
    (∃ results,
      (run (fun _ => false) true chunks start_khz step_khz).2.1 = some results ∧
      results.length =
        (capture_loop ((chunks ++ List.replicate NUM_CAPTURES []).take NUM_CAPTURES)
          []).1.length / 4 ∧
      ∀ i, ∀ hi : i < results.length,
        results[i] =
          (start_khz + (i : ℤ) * step_khz,
            decode_float32 (word32_of_le
              ((capture_loop ((chunks ++ List.replicate NUM_CAPTURES []).take NUM_CAPTURES)
                []).1.getD (4 * i) 0)
              ((capture_loop ((chunks ++ List.replicate NUM_CAPTURES []).take NUM_CAPTURES)
                []).1.getD (4 * i + 1) 0)
              ((capture_loop ((chunks ++ List.replicate NUM_CAPTURES []).take NUM_CAPTURES)
                []).1.getD (4 * i + 2) 0)
              ((capture_loop ((chunks ++ List.replicate NUM_CAPTURES []).take NUM_CAPTURES)
                []).1.getD (4 * i + 3) 0)))) ∧
    (run (fun _ => false) true
        [[0, 0, 0, 0, 0, 0, 0, 0, 0, 0, 0, 0, 0, 0, 0, 0, 0, 0xC0, 0xBF, 0]]
        1000 10).2.1 = some [(1000, PyVal.num 0), (1010, PyVal.num (-(3 / 2)))] := by
  constructor
  · refine ⟨_, rfl, ?_, ?_⟩
    · simp [List.length_map, List.enum_length, decode_floats_length]
    · intro i hi
      simp only [List.getElem_map, List.getElem_enum]
      have hdf : i < (decode_floats
          (capture_loop ((chunks ++ List.replicate NUM_CAPTURES []).take NUM_CAPTURES)
            []).1).length := by
        simpa [List.length_map, List.enum_length] using hi
      rw [decode_floats_getElem _ i hdf]
  · have hb : capture_loop
        (([([0, 0, 0, 0, 0, 0, 0, 0, 0, 0, 0, 0, 0, 0, 0, 0, 0, 0xC0, 0xBF, 0] : List ℕ)]
          ++ List.replicate NUM_CAPTURES []).take NUM_CAPTURES) [] =
        ([0, 0, 0, 0, 0, 0, 0xC0, 0xBF], 60) := by
      have hreads :
          (([([0, 0, 0, 0, 0, 0, 0, 0, 0, 0, 0, 0, 0, 0, 0, 0, 0, 0xC0, 0xBF, 0] : List ℕ)]
            ++ List.replicate NUM_CAPTURES []).take NUM_CAPTURES) =
          ([0, 0, 0, 0, 0, 0, 0, 0, 0, 0, 0, 0, 0, 0, 0, 0, 0, 0xC0, 0xBF, 0] : List ℕ) ::
            List.replicate 59 [] := by
        show (([0, 0, 0, 0, 0, 0, 0, 0, 0, 0, 0, 0, 0, 0, 0, 0, 0, 0xC0, 0xBF, 0] : List ℕ) ::
            List.replicate 60 []).take 60 = _
        rw [show (60 : ℕ) = 59 + 1 from rfl, List.take_succ_cons, List.take_replicate]
        norm_num
      rw [hreads, capture_loop]
      norm_num [sentinel]
      rw [capture_loop_empty_reads]
      exact ⟨rfl, rfl⟩
    simp only [run]
    rw [hb]
    norm_num [decode_floats, decode_float32, word32_of_le, List.enum, List.enumFrom]


/-! ### Theorems for teardown on error (claim C5) -/

/-- Helper for C5: with a live controller, shutdown always attempts RF
off first and always closes the link last, whatever faults the
environment injects into the off-commands. -/
theorem shutdown_closes (env : Env) :
    (shutdown env true).1.getLast? = some Op.closeLink ∧
    Op.rfOff ∈ (shutdown env true).1 := by
  by_cases h1 : env Op.rfOff <;> by_cases h2 : env Op.detectorOff <;>
    simp [shutdown, h1, h2]

/-- C5 counterexample: calling run without a prior setup raises the
RuntimeError guard before the try block, so the exception escapes with
shutdown never invoked — the trace is empty, and in particular the link
close never happens — contradicting the claim that every exception
raised inside run triggers shutdown first. -/
theorem run_without_setup_no_teardown :
    (run (fun _ => false) false [] 0 0).2.1 = none ∧
    (run (fun _ => false) false [] 0 0).1 = [] ∧
    Op.closeLink ∉ (run (fun _ => false) false [] 0 0).1 := by
  have h : run (fun _ => false) false [] 0 0 = ([], none, false) := rfl
  refine ⟨by rw [h], by rw [h], by rw [h]; simp⟩

/-- C5 (amended): once the controller exists, every exception raised
inside the try blocks of setup and run triggers shutdown — RF off
attempted, link closed last — before the exception escapes, and a fault
in the RF-off or detector-off command cannot prevent the link close; but
the two pre-try raises are not covered: a controller-open failure in
setup escapes having attempted nothing beyond the open, and run invoked
without a controller raises with an empty trace and no teardown. -/
theorem teardown_on_error (env : Env) :
    ((shutdown env true).1.getLast? = some Op.closeLink ∧
      Op.rfOff ∈ (shutdown env true).1) ∧
    (env Op.openLink = false → (setup env).2.1 = true →
      (setup env).1.getLast? = some Op.closeLink ∧ Op.rfOff ∈ (setup env).1) ∧
    (env Op.openLink = true →
      (setup env).1 = [Op.openLink] ∧ (setup env).2.1 = true) ∧
    (∀ chunks : List (List ℕ), ∀ start_khz step_khz : ℤ,
      (run env true chunks start_khz step_khz).2.1 = none →
        (run env true chunks start_khz step_khz).1.getLast? = some Op.closeLink ∧
        Op.rfOff ∈ (run env true chunks start_khz step_khz).1) ∧
    (∀ chunks : List (List ℕ), ∀ start_khz step_khz : ℤ,
      run env false chunks start_khz step_khz = ([], none, false)) := by
  refine ⟨shutdown_closes env, ?_, ?_, ?_, fun chunks s k => rfl⟩
  · intro hopen hraised
    simp only [setup, hopen, Bool.false_eq_true, if_false] at hraised ⊢
    by_cases hr : (runSteps env setupSteps).2 = true
    · simp only [hr, if_true]
      constructor
      · rw [List.getLast?_append, (shutdown_closes env).1]
        rfl
      · have hm := (shutdown_closes env).2
        simp only [List.mem_cons, List.mem_append]
        tauto
    · simp [hr] at hraised
  · intro hopen
    simp [setup, hopen]
  · intro chunks s k h
    by_cases h1 : env Op.startAnalyzer = true
    · simp only [run, h1, Bool.true_eq_false, if_false, if_true]
      constructor
      · rw [show Op.startAnalyzer :: (shutdown env true).1 =
            [Op.startAnalyzer] ++ (shutdown env true).1 from rfl,
          List.getLast?_append, (shutdown_closes env).1]
        rfl
      · have hm := (shutdown_closes env).2
        simp only [List.mem_cons, List.mem_append]
        tauto
    · by_cases h2 : env Op.capture = true
      · simp only [run, h1, h2, Bool.true_eq_false, Bool.false_eq_true, if_false, if_true]
        constructor
        · rw [show Op.startAnalyzer :: Op.capture :: (shutdown env true).1 =
              [Op.startAnalyzer, Op.capture] ++ (shutdown env true).1 from rfl,
            List.getLast?_append, (shutdown_closes env).1]
          rfl
        · have hm := (shutdown_closes env).2
          simp only [List.mem_cons, List.mem_append]
          tauto
      · simp only [Bool.not_eq_true] at h1 h2
        simp [run, h1, h2] at h

/-- C5 witness: the amended teardown theorem at two concrete fault
environments — a parameter-set failure during setup and a start failure
during run — both of which end their traces with the link close. -/
theorem teardown_on_error_witness :
    ((setup (fun op => decide (op = Op.setAnalyzerParams))).1.getLast? =
        some Op.closeLink ∧
      Op.rfOff ∈ (setup (fun op => decide (op = Op.setAnalyzerParams))).1) ∧
    ((run (fun op => decide (op = Op.startAnalyzer)) true [] 0 0).1.getLast? =
        some Op.closeLink ∧
      Op.rfOff ∈ (run (fun op => decide (op = Op.startAnalyzer)) true [] 0 0).1) :=
  ⟨(teardown_on_error (fun op => decide (op = Op.setAnalyzerParams))).2.1
      (by decide) (by decide),
   (teardown_on_error (fun op => decide (op = Op.startAnalyzer))).2.2.2.1 [] 0 0
      (by decide)⟩


/-! ### Theorems for decoder resynchronization (claim C6) -/

namespace tpi_controller

/-- Helper for C6: the marker scan consumes and ignores any leading
bytes that are not 0xAA. -/
theorem scan_marker_junk (junk s : List ℕ) (h : ∀ b ∈ junk, b ≠ 0xAA) :
    scan_marker (junk ++ s) = scan_marker s := by
  induction junk with
  | nil => rfl
  | cons b rest ih =>
    have hb : b ≠ 0xAA := h b (by simp)
    rw [List.cons_append, scan_marker.eq_def]
    simp only [hb, if_false]
    exact ih fun x hx => h x (by simp [hx])

end tpi_controller

/-- C6 counterexample: where a frame should start, the tpi_controller2
response reader meets one junk byte before a valid frame and fails
outright with its invalid-header error instead of resynchronizing; the
tpi_controller reader on the same stream scans past the junk and returns
the frame body. -/
theorem read_response_v2_no_resync :
    tpi_controller2.read_response (0 :: tpi_controller2.build_packet [7, 2]) =
      .error .invalidHeader ∧
    tpi_controller.read_response (0 :: tpi_controller2.build_packet [7, 2]) =
      .body [7, 2] := by
  constructor <;> decide

/-- C6 (amended): the tpi_controller response reader resynchronizes —
a junk prefix containing no 0xAA byte is scanned past, and decoding
proceeds exactly as if the stream began at the marker — while the
tpi_controller2 response reader does not: it raises its invalid-header
RuntimeError on the first bytes that are not the two-byte marker. -/
theorem read_response_v1_resync (junk s : List ℕ) (h : ∀ b ∈ junk, b ≠ 0xAA) :
    tpi_controller.read_response (junk ++ s) = tpi_controller.read_response s ∧
    tpi_controller2.read_response (0 :: tpi_controller2.build_packet [7, 2]) =
      .error .invalidHeader := by
  constructor
  · unfold tpi_controller.read_response
    rw [tpi_controller.scan_marker_junk junk s h]
  · decide

/-- C6 witness: the resynchronization theorem applied to a concrete
three-byte junk prefix before a valid frame. -/
theorem read_response_v1_resync_witness :
    tpi_controller.read_response ([1, 2, 3] ++ tpi_controller2.build_packet [7, 2]) =
      tpi_controller.read_response (tpi_controller2.build_packet [7, 2]) ∧
    tpi_controller2.read_response (0 :: tpi_controller2.build_packet [7, 2]) =
      .error .invalidHeader :=
  read_response_v1_resync [1, 2, 3] (tpi_controller2.build_packet [7, 2]) (by decide)


/-! ### Theorems for evaluate_vswr_range (claim C1) -/

/-- Helper for C1: in a frequency-sorted list the head frequency is
minimal. -/
theorem sorted_head_min (l : List (ℤ × ℚ))
    (hp : List.Pairwise (fun a b : ℤ × ℚ => a.1 ≤ b.1) l) :
    ∀ x ∈ l, (l.headD (0, 0)).1 ≤ x.1 := by
  cases l with
  | nil => intro x hx; simp at hx
  | cons y rest =>
    intro x hx
    rcases List.mem_cons.mp hx with rfl | hx2
    · simp
    · exact (List.pairwise_cons.mp hp).1 x hx2

/-- Helper for C1: in a frequency-sorted list the last frequency is
maximal, for any default. -/
theorem sorted_le_getLastD : ∀ (l : List (ℤ × ℚ)) (d : ℤ × ℚ),
    List.Pairwise (fun a b : ℤ × ℚ => a.1 ≤ b.1) l →
    ∀ x ∈ l, x.1 ≤ (l.getLastD d).1
  | [], _, _ => by intro x hx; simp at hx
  | [y], d, _ => by
    intro x hx
    have hxy : x = y := by simpa using hx
    have he : ([y].getLastD d) = y := by
      rw [List.getLastD_cons]
      rfl
    rw [hxy, he]
  | y :: z :: rest, d, hp => by
    intro x hx
    have htail := sorted_le_getLastD (z :: rest) y (List.pairwise_cons.mp hp).2
    have hgl : ((y :: z :: rest).getLastD d) = ((z :: rest).getLastD y) :=
      List.getLastD_cons d y (z :: rest)
    rw [hgl]
    rcases List.mem_cons.mp hx with h | hx2
    · have h1 : y.1 ≤ z.1 := (List.pairwise_cons.mp hp).1 z (by simp)
      have h2 := htail z (by simp)
      rw [h]
      exact le_trans h1 h2
    · exact htail x hx2

/-- Helper for C1: when every point is above the high query bound, every
segment is skipped and the check passes. -/
theorem segments_ok_all_high (freq_low freq_high : ℤ) (vswr_limit : ℚ) :
    ∀ l : List (ℤ × ℚ), (∀ x ∈ l, freq_high < x.1) →
      segments_ok freq_low freq_high vswr_limit l = true
  | [], _ => rfl
  | [x], _ => rfl
  | (f1, v1) :: (f2, v2) :: rest, h => by
    have hx : freq_high < f1 := h (f1, v1) (by simp)
    have ih := segments_ok_all_high freq_low freq_high vswr_limit ((f2, v2) :: rest)
      (fun x hx2 => h x (List.mem_cons_of_mem _ hx2))
    simp only [segments_ok]
    rw [if_pos (Or.inl hx)]
    simp [ih]

/-- Helper for C1: truncating a frequency-sorted list after its first
point above the high query bound does not change the segment check. -/
theorem segments_ok_cut (freq_low freq_high : ℤ) (vswr_limit : ℚ) :
    ∀ l : List (ℤ × ℚ), List.Pairwise (fun a b : ℤ × ℚ => a.1 ≤ b.1) l →
      segments_ok freq_low freq_high vswr_limit (cutAfterHigh freq_high l) =
        segments_ok freq_low freq_high vswr_limit l
  | [], _ => rfl
  | [x], _ => by simp [cutAfterHigh, segments_ok]
  | (f1, v1) :: (f2, v2) :: rest, hp => by
    by_cases h1 : freq_high < f1
    · rw [cutAfterHigh, if_pos h1]
      have hrest : ∀ x ∈ (f2, v2) :: rest, freq_high < x.1 := by
        intro x hx
        have hle : f1 ≤ x.1 := (List.pairwise_cons.mp hp).1 x hx
        omega
      have hr := segments_ok_all_high freq_low freq_high vswr_limit ((f2, v2) :: rest) hrest
      have hskip : segments_ok freq_low freq_high vswr_limit
          ((f1, v1) :: (f2, v2) :: rest) = true := by
        simp only [segments_ok]
        rw [if_pos (Or.inl h1)]
        simp [hr]
      rw [hskip]
      rfl
    · rw [cutAfterHigh, if_neg h1]
      have ih := segments_ok_cut freq_low freq_high vswr_limit ((f2, v2) :: rest)
        (List.pairwise_cons.mp hp).2
      have hT : cutAfterHigh freq_high ((f2, v2) :: rest) =
          (f2, v2) :: (if freq_high < f2 then [] else cutAfterHigh freq_high rest) := rfl
      rw [hT] at ih ⊢
      simp only [segments_ok] at ih ⊢
      rw [ih]


/-- Helper for C1: once the previous point is below freq_low or every
remaining point is at or above it, the relevant-point loop keeps every
point up to its break, producing the cutAfterHigh window. -/
theorem relevant_points_eq_cut (freq_low freq_high : ℤ) :
    ∀ (l : List (ℤ × ℚ)) (pf : ℤ),
      List.Pairwise (fun a b : ℤ × ℚ => a.1 ≤ b.1) l →
      (pf < freq_low ∨ ∀ x ∈ l, freq_low ≤ x.1) →
      relevant_points freq_low freq_high (some pf) l = cutAfterHigh freq_high l
  | [], _, _, _ => rfl
  | (f, v) :: rest, pf, hp, hlow => by
    have hkeep : (decide (freq_low ≤ f) || decide (pf < freq_low)) = true := by
      rcases hlow with h | h
      · simp [h]
      · simp [h (f, v) (by simp)]
    simp only [relevant_points, hkeep, if_true, cutAfterHigh]
    by_cases h2 : freq_high < f
    · simp [h2]
    · simp only [if_neg h2]
      have htail : f < freq_low ∨ ∀ x ∈ rest, freq_low ≤ x.1 := by
        by_cases hf : f < freq_low
        · exact Or.inl hf
        · refine Or.inr fun x hx => ?_
          have : f ≤ x.1 := (List.pairwise_cons.mp hp).1 x hx
          omega
      rw [relevant_points_eq_cut freq_low freq_high rest f
        (List.pairwise_cons.mp hp).2 htail]

/-- Helper for C1: when every point is at or above freq_low, the
relevant-point loop started with no previous point produces the
cutAfterHigh window of the whole list. -/
theorem relevant_points_none_eq (freq_low freq_high : ℤ) (l : List (ℤ × ℚ))
    (hp : List.Pairwise (fun a b : ℤ × ℚ => a.1 ≤ b.1) l)
    (hall : ∀ x ∈ l, freq_low ≤ x.1) :
    relevant_points freq_low freq_high none l = cutAfterHigh freq_high l := by
  cases l with
  | nil => rfl
  | cons x rest =>
    obtain ⟨f, v⟩ := x
    have hkeep : (decide (freq_low ≤ f) || false) = true := by
      simp [hall (f, v) (by simp)]
    simp only [relevant_points, hkeep, if_true, cutAfterHigh]
    by_cases h2 : freq_high < f
    · simp [h2]
    · simp only [if_neg h2]
      have htail : f < freq_low ∨ ∀ x ∈ rest, freq_low ≤ x.1 :=
        Or.inr fun x hx => hall x (List.mem_cons_of_mem _ hx)
      rw [relevant_points_eq_cut freq_low freq_high rest f
        (List.pairwise_cons.mp hp).2 htail]


/-- Helper for C1: the concrete acceptance example of the claim — the
middle point 1.8 exceeds the 1.5 limit, so the crossing segments fail
and the evaluation returns false. -/
theorem evaluate_vswr_range_example :
    evaluate_vswr_range [(1616000, 6/5), (1621000, 9/5), (1626500, 13/10)]
      1616000 1626500 (3/2) = .ok false := by
  norm_num [evaluate_vswr_range, sortByFreq, List.insertionSort, List.orderedInsert,
    relevant_points, segments_ok, max_def, min_def]


/-- C1 counterexample: on points (100,10), (200,1), (300,1), (400,1)
with query range 150..400 and limit 3/2, the claim's rule examines the
crossing first segment — whose clipped boundary value at 150 kHz is
11/2, far above the limit — and fails; the source instead drops the sole
leading point below the range from its relevant list, never examines
that segment, and returns true. -/
theorem evaluate_range_missed_crossing_segment :
    evaluate_vswr_range [(100, 10), (200, 1), (300, 1), (400, 1)] 150 400 (3/2) =
      .ok true ∧
    evaluate_range_claim [(100, 10), (200, 1), (300, 1), (400, 1)] 150 400 (3/2) =
      false := by
  constructor <;>
    norm_num [evaluate_vswr_range, evaluate_range_claim, sortByFreq, List.insertionSort,
      List.orderedInsert, relevant_points, segments_ok, max_def, min_def]

/-- C1 (amended): for a nonempty point list with pairwise distinct
frequencies and a query range inside the measured span, the source
equals the claim's per-pair rule applied NOT to the full sorted list but
to the sorted list with a sole leading point strictly below lowFreq
dropped: the relevant-point loop discards that point, so the segment
crossing the lower bound from it is never examined.  On every other
point the behaviour is exactly the claim's, and the claim's concrete
example still evaluates to false. -/
theorem evaluate_vswr_range_trimmed_claim (data : List (ℤ × ℚ))
    (freq_low freq_high : ℤ) (vswr_limit : ℚ)
    (hne : data ≠ [])
    (hdist : List.Pairwise (fun a b : ℤ × ℚ => a.1 ≠ b.1) data)
    (hlh : freq_low ≤ freq_high)
    (hlo : ∃ p ∈ data, p.1 ≤ freq_low)
    (hhi : ∃ p ∈ data, freq_high ≤ p.1) :
    evaluate_vswr_range data freq_low freq_high vswr_limit =
      .ok (evaluate_range_claim
        (if ((sortByFreq data).headD (0, 0)).1 < freq_low then (sortByFreq data).tail
         else sortByFreq data) freq_low freq_high vswr_limit) ∧
    evaluate_vswr_range [(1616000, 6/5), (1621000, 9/5), (1626500, 13/10)]
      1616000 1626500 (3/2) = .ok false := by
  refine ⟨?_, evaluate_vswr_range_example⟩
  have hs : List.Pairwise (fun a b : ℤ × ℚ => a.1 ≤ b.1) (sortByFreq data) :=
    List.sorted_insertionSort _ data
  have hperm : (sortByFreq data).Perm data := List.perm_insertionSort _ data
  obtain ⟨⟨f, v⟩, rest, he⟩ : ∃ x r, sortByFreq data = x :: r := by
    cases hsd : sortByFreq data with
    | nil =>
      rw [hsd] at hperm
      exact absurd hperm.symm.eq_nil hne
    | cons a l => exact ⟨a, l, rfl⟩
  obtain ⟨p, hpmem, hple⟩ := hlo
  obtain ⟨q, hqmem, hqge⟩ := hhi
  have hpmem2 : p ∈ sortByFreq data := hperm.mem_iff.mpr hpmem
  have hqmem2 : q ∈ sortByFreq data := hperm.mem_iff.mpr hqmem
  have hmin : ((sortByFreq data).headD (0, 0)).1 ≤ freq_low :=
    le_trans (sorted_head_min _ hs p hpmem2) hple
  have hmax : freq_high ≤ ((sortByFreq data).getLastD (0, 0)).1 :=
    le_trans hqge (sorted_le_getLastD _ _ hs q hqmem2)
  rw [he] at hs hmin hmax
  simp only [List.headD_cons] at hmin
  have hstail : List.Pairwise (fun a b : ℤ × ℚ => a.1 ≤ b.1) rest :=
    (List.pairwise_cons.mp hs).2
  simp only [evaluate_vswr_range, he, List.headD_cons, List.tail_cons]
  rw [if_neg (by simp only [not_or, not_lt]; exact ⟨hmin, hmax⟩)]
  by_cases hh : f < freq_low
  · rw [if_pos hh]
    have hrel : relevant_points freq_low freq_high none ((f, v) :: rest) =
        cutAfterHigh freq_high rest := by
      simp only [relevant_points]
      have hkeep : (decide (freq_low ≤ f) || false) = false := by
        simp only [Bool.or_false, decide_eq_false_iff_not, not_le]
        exact hh
      rw [hkeep, if_neg (by omega : ¬ freq_high < f), if_neg (by simp)]
      exact relevant_points_eq_cut freq_low freq_high rest f hstail (Or.inl hh)
    rw [hrel, segments_ok_cut freq_low freq_high vswr_limit rest hstail]
    have hself : sortByFreq rest = rest := List.Sorted.insertionSort_eq hstail
    simp only [evaluate_range_claim, hself]
  · rw [if_neg hh]
    have hall : ∀ x ∈ (f, v) :: rest, freq_low ≤ x.1 := by
      intro x hx
      have h1 := sorted_head_min _ hs x hx
      simp only [List.headD_cons] at h1
      omega
    rw [relevant_points_none_eq freq_low freq_high _ hs hall,
      segments_ok_cut freq_low freq_high vswr_limit _ hs]
    have hself : sortByFreq ((f, v) :: rest) = (f, v) :: rest :=
      List.Sorted.insertionSort_eq hs
    simp only [evaluate_range_claim, hself]

/-- C1 witness: the amended theorem applied to the claim's concrete
example, whose query range starts exactly at the lowest measured
frequency (so no point is trimmed). -/
theorem evaluate_vswr_range_trimmed_claim_witness :
    evaluate_vswr_range [(1616000, 6/5), (1621000, 9/5), (1626500, 13/10)]
        1616000 1626500 (3/2) =
      .ok (evaluate_range_claim
        (if ((sortByFreq [(1616000, 6/5), (1621000, 9/5), (1626500, 13/10)]).headD
            (0, 0)).1 < 1616000 then
          (sortByFreq [(1616000, 6/5), (1621000, 9/5), (1626500, 13/10)]).tail
         else sortByFreq [(1616000, 6/5), (1621000, 9/5), (1626500, 13/10)])
        1616000 1626500 (3/2)) ∧
    evaluate_vswr_range [(1616000, 6/5), (1621000, 9/5), (1626500, 13/10)]
      1616000 1626500 (3/2) = .ok false :=
  evaluate_vswr_range_trimmed_claim
    [(1616000, 6/5), (1621000, 9/5), (1626500, 13/10)] 1616000 1626500 (3 / 2)
    (by simp)
    (by norm_num [List.pairwise_cons])
    (by norm_num)
    ⟨(1616000, 6/5), List.mem_cons_self _ _, le_refl _⟩
    ⟨(1626500, 13/10),
      List.mem_cons_of_mem _ (List.mem_cons_of_mem _ (List.mem_cons_self _ _)),
      le_refl _⟩


/-! ### Theorems for interpolated (claim C10) -/

/-- Helper for C10: every point produced by the inner insertion loop has
frequency strictly between freq1 and freq2, provided the step is at
least 1 and the loop starts at a positive multiple. -/
theorem insert_points_mem (spline : ℤ → ℚ) (freq1 freq2 step : ℤ) (hstep : 1 ≤ step) :
    ∀ (k : ℕ) (j : ℤ), 1 ≤ j → ∀ p ∈ insert_points spline freq1 freq2 step k j,
      freq1 < p.1 ∧ p.1 < freq2
  | 0, j, _ => by intro p hp; simp [insert_points] at hp
  | k + 1, j, hj => by
    intro p hp
    simp only [insert_points] at hp
    by_cases hb : freq2 ≤ freq1 + j * step
    · rw [if_pos hb] at hp
      simp at hp
    · rw [if_neg hb] at hp
      rcases List.mem_cons.mp hp with h | hp2
      · have h1 : (1 : ℤ) ≤ j * step := by
          calc (1 : ℤ) = 1 * 1 := by ring
          _ ≤ j * step := mul_le_mul hj hstep (by norm_num) (le_trans (by norm_num) hj)
        rw [h]
        exact ⟨by omega, by omega⟩
      · exact insert_points_mem spline freq1 freq2 step hstep k (j + 1) (by omega) p hp2

/-- C10: in cubic mode with factor at least 1, at least 4 points and
pairwise distinct frequencies (inputs accepted by the spline
constructor), every output frequency of interpolated lies within the
closed span of the input frequencies, every output point is either an
original point (an input frequency) or strictly between the adjacent
pair of sorted original frequencies it was generated for, and the
output is sorted by frequency. -/
theorem interpolated_freq_invariants (spline : ℤ → ℚ) (data : List (ℤ × ℚ))
    (factor : ℤ) (hf : 1 ≤ factor) (hlen : 4 ≤ data.length)
    (hdist : List.Pairwise (fun a b : ℤ × ℚ => a.1 ≠ b.1) data) :
    ∃ out, interpolated spline data factor Method.cubic = .ok out ∧
      (∀ p ∈ out, (∃ q ∈ data, q.1 ≤ p.1) ∧ (∃ q ∈ data, p.1 ≤ q.1)) ∧
      List.Pairwise (fun a b : ℤ × ℚ => a.1 ≤ b.1) out ∧
      (∀ p ∈ out,
        (∃ q ∈ data, p.1 = q.1) ∨
        ∃ i : ℕ, i + 1 < (sortPairs data).length ∧
          ((sortPairs data).getD i (0, 0)).1 < p.1 ∧
          p.1 < ((sortPairs data).getD (i + 1) (0, 0)).1) := by
  have hperm : (sortPairs data).Perm data := List.perm_insertionSort _ data
  have hlex : List.Pairwise
      (fun a b : ℤ × ℚ => a.1 < b.1 ∨ (a.1 = b.1 ∧ a.2 ≤ b.2)) (sortPairs data) :=
    List.sorted_insertionSort _ data
  have hdist2 : List.Pairwise (fun a b : ℤ × ℚ => a.1 ≠ b.1) (sortPairs data) :=
    (hperm.pairwise_iff fun h => Ne.symm h).mpr hdist
  have hstrict : List.Pairwise (fun a b : ℤ × ℚ => a.1 < b.1) (sortPairs data) := by
    refine (hlex.and hdist2).imp ?_
    rintro a b ⟨hl | ⟨he, _⟩, hne⟩
    · exact hl
    · exact absurd he hne
  have hlen2 : ¬ (sortPairs data).length < 4 := by
    rw [hperm.length_eq]
    omega
  simp only [interpolated]
  rw [if_neg (by push_neg; exact ⟨by decide, by omega⟩),
    if_neg hlen2, if_neg (not_not_intro hstrict.chain')]
  refine ⟨_, rfl, ?_, ?_, ?_⟩
  · intro p hp
    have hp2 : p ∈ ((sortPairs data).map fun q => (q.1, round3 q.2)) ++
        (List.range ((sortPairs data).length - 1)).flatMap (fun i =>
          if Int.fdiv (((sortPairs data).getD (i + 1) (0, 0)).1 -
              ((sortPairs data).getD i (0, 0)).1) (factor + 1) < 1 then []
          else insert_points spline ((sortPairs data).getD i (0, 0)).1
            ((sortPairs data).getD (i + 1) (0, 0)).1
            (Int.fdiv (((sortPairs data).getD (i + 1) (0, 0)).1 -
              ((sortPairs data).getD i (0, 0)).1) (factor + 1)) factor.toNat 1) :=
      (List.perm_insertionSort _ _).mem_iff.mp hp
    rcases List.mem_append.mp hp2 with hf2 | hins
    · obtain ⟨q, hq, he⟩ := List.mem_map.mp hf2
      have hqd : q ∈ data := hperm.mem_iff.mp hq
      constructor
      · exact ⟨q, hqd, by rw [← he]⟩
      · exact ⟨q, hqd, by rw [← he]⟩
    · obtain ⟨i, hir, hpi⟩ := List.mem_flatMap.mp hins
      have hi2 : i + 1 < (sortPairs data).length := by
        have := List.mem_range.mp hir
        omega
      by_cases hstep : Int.fdiv (((sortPairs data).getD (i + 1) (0, 0)).1 -
          ((sortPairs data).getD i (0, 0)).1) (factor + 1) < 1
      · rw [if_pos hstep] at hpi
        simp at hpi
      · rw [if_neg hstep] at hpi
        have hb := insert_points_mem spline _ _ _ (by omega) factor.toNat 1
          (by norm_num) p hpi
        have hm1 : (sortPairs data).getD i (0, 0) ∈ data := by
          refine hperm.mem_iff.mp ?_
          rw [List.getD_eq_getElem _ _ (by omega)]
          exact List.getElem_mem _
        have hm2 : (sortPairs data).getD (i + 1) (0, 0) ∈ data := by
          refine hperm.mem_iff.mp ?_
          rw [List.getD_eq_getElem _ _ hi2]
          exact List.getElem_mem _
        exact ⟨⟨_, hm1, le_of_lt hb.1⟩, ⟨_, hm2, le_of_lt hb.2⟩⟩
  · exact List.sorted_insertionSort _ _
  · intro p hp
    have hp2 : p ∈ ((sortPairs data).map fun q => (q.1, round3 q.2)) ++
        (List.range ((sortPairs data).length - 1)).flatMap (fun i =>
          if Int.fdiv (((sortPairs data).getD (i + 1) (0, 0)).1 -
              ((sortPairs data).getD i (0, 0)).1) (factor + 1) < 1 then []
          else insert_points spline ((sortPairs data).getD i (0, 0)).1
            ((sortPairs data).getD (i + 1) (0, 0)).1
            (Int.fdiv (((sortPairs data).getD (i + 1) (0, 0)).1 -
              ((sortPairs data).getD i (0, 0)).1) (factor + 1)) factor.toNat 1) :=
      (List.perm_insertionSort _ _).mem_iff.mp hp
    rcases List.mem_append.mp hp2 with hf2 | hins
    · obtain ⟨q, hq, he⟩ := List.mem_map.mp hf2
      exact Or.inl ⟨q, hperm.mem_iff.mp hq, by rw [← he]⟩
    · obtain ⟨i, hir, hpi⟩ := List.mem_flatMap.mp hins
      have hi2 : i + 1 < (sortPairs data).length := by
        have := List.mem_range.mp hir
        omega
      by_cases hstep : Int.fdiv (((sortPairs data).getD (i + 1) (0, 0)).1 -
          ((sortPairs data).getD i (0, 0)).1) (factor + 1) < 1
      · rw [if_pos hstep] at hpi
        simp at hpi
      · rw [if_neg hstep] at hpi
        have hb := insert_points_mem spline _ _ _ (by omega) factor.toNat 1
          (by norm_num) p hpi
        exact Or.inr ⟨i, hi2, hb.1, hb.2⟩

/-- C10 witness: the invariants at a concrete four-point data set, a
constant spline and factor 3. -/
theorem interpolated_freq_invariants_witness :
    ∃ out, interpolated (fun _ => 0) [(100, 1), (200, 2), (300, 1), (400, 3)] 3 Method.cubic =
        .ok out ∧
      (∀ p ∈ out, (∃ q ∈ [((100 : ℤ), (1 : ℚ)), (200, 2), (300, 1), (400, 3)], q.1 ≤ p.1) ∧
        (∃ q ∈ [((100 : ℤ), (1 : ℚ)), (200, 2), (300, 1), (400, 3)], p.1 ≤ q.1)) ∧
      List.Pairwise (fun a b : ℤ × ℚ => a.1 ≤ b.1) out ∧
      (∀ p ∈ out,
        (∃ q ∈ [((100 : ℤ), (1 : ℚ)), (200, 2), (300, 1), (400, 3)], p.1 = q.1) ∨
        ∃ i : ℕ,
          i + 1 < (sortPairs [((100 : ℤ), (1 : ℚ)), (200, 2), (300, 1), (400, 3)]).length ∧
          ((sortPairs [((100 : ℤ), (1 : ℚ)), (200, 2), (300, 1), (400, 3)]).getD i (0, 0)).1 <
            p.1 ∧
          p.1 < ((sortPairs [((100 : ℤ), (1 : ℚ)), (200, 2), (300, 1), (400, 3)]).getD (i + 1)
            (0, 0)).1) :=
  interpolated_freq_invariants (fun _ => 0) [(100, 1), (200, 2), (300, 1), (400, 3)] 3
    (by norm_num) (by norm_num) (by norm_num [List.pairwise_cons])

end TP1005
